import Mathlib

/-!
Verification of the QuizMaster quiz application (React/JS) against its
natural-language specification, via a shallow embedding of the core logic:

* `src/hooks/useQuiz.js` (source file `unnamed/part_001`): question loading
  with remote/local fallback, answer recording, `finishQuiz` scoring,
  derived `quizResults`.
* `src/utils/api.js` (inside `unnamed/part_000`): Open Trivia DB fetch
  formatting, rate-limited fetch scheduling, `fetchQuestionsWithRetry`,
  `calculatePercentage`, `saveScore`.
* `src/hooks/useLocalStorage.js` (inside `unnamed/part_002`): high-score
  ledger (`addScore` / `getBestScore`) and statistics (`updateStats`).

JavaScript numbers are modelled as `Nat`/`Int`; `NaN` results of `0/0`
inside `Math.round` are modelled as `none : Option Nat`.  The JS object
used as the answers map is modelled as an association list keyed by
question id.  `Math.random`-driven shuffles are modelled as an abstract
shuffler parameter, constrained to permutations where a claim needs it.
-/

/-- JS rounding `Math.round ((c / t) * 100)` for `t > 0`: round-half-up of the exact
rational `100 * c / t`, computed as `⌊(200c + t) / (2t)⌋`.  (The spec calls
this "platform rounding"; we model the arithmetic exactly over ℚ≥0.) -/
def mathRoundPct (c t : Nat) : Nat := (200 * c + t) / (2 * t)

/-- The expression `Math.round ((c / t) * 100)` as written in `finishQuiz` / `quizResults`,
with no guard on `t = 0`.  In JS, `t = 0` (empty question list, so `c = 0`)
gives `0/0 = NaN` and `Math.round NaN = NaN`: we model the non-numeric
result as `none`. -/
def jsPercentage (c t : Nat) : Option Nat :=
  if t = 0 then none else some (mathRoundPct c t)

/-- Helper `calculatePercentage` from api.js: `if (total === 0) return 0;
return Math.round((correct / total) * 100);` -/
def calculatePercentage (correct total : Nat) : Nat :=
  if total = 0 then 0 else mathRoundPct correct total

/-- The `correctAnswer` field of a question.  Local questions carry the
index of the correct option (a JS number); questions formatted from the
Open Trivia DB API carry the raw `correct_answer` string
(`api.js` line `correctAnswer: question.correct_answer`). -/
inductive CorrectAns where
  | idx : Nat → CorrectAns
  | text : String → CorrectAns
deriving DecidableEq

/-- A formatted question as held in the `questions` state of `useQuiz`. -/
structure Question where
  id : Nat
  category : String
  difficulty : String
  question : String
  options : List String
  correctAnswer : CorrectAns
  explanation : Option String := none
deriving DecidableEq

/-- JS strict equality `userAnswer === question.correctAnswer`, where
`userAnswer` is either a chosen option index (a number) or `undefined`
(no entry in the answers map).  `undefined === x` is false, and a number
is never strictly equal to a string. -/
def jsStrictEq (userAnswer : Option Nat) (correctAnswer : CorrectAns) : Bool :=
  match userAnswer, correctAnswer with
  | some n, CorrectAns.idx m => n == m
  | _, _ => false

/-- One entry of the `results` array built by `finishQuiz` / `quizResults`. -/
structure QuestionOutcome where
  question : Question
  userAnswer : Option Nat
  isCorrect : Bool
  correctAnswer : CorrectAns
deriving DecidableEq

/-- One graded entry `{ question, userAnswer, isCorrect, correctAnswer }`:
`userAnswer = selectedAnswers[question.id]`,
`isCorrect = userAnswer === question.correctAnswer`. -/
def gradeQuestion (selectedAnswers : List (Nat × Nat)) (q : Question) : QuestionOutcome :=
  { question := q
    userAnswer := selectedAnswers.lookup q.id
    isCorrect := jsStrictEq (selectedAnswers.lookup q.id) q.correctAnswer
    correctAnswer := q.correctAnswer }

/-- The relevant slice of the `useQuiz` hook state. Timestamps are
milliseconds (`Date` values) modelled as `Int`. -/
structure QuizState where
  questions : List Question
  currentQuestionIndex : Nat := 0
  selectedAnswers : List (Nat × Nat) := []
  quizCompleted : Bool := false
  score : Nat := 0
  timerActive : Bool := false
  startTime : Option Int := none
  endTime : Option Int := none
deriving DecidableEq

/-- The Result object returned by `finishQuiz` and derived by `quizResults`. -/
structure QuizResult where
  score : Nat
  total : Nat
  percentage : Option Nat
  results : List QuestionOutcome
  timeTaken : Int
deriving DecidableEq

/-- The `finishQuiz` action from useQuiz.js, called at wall-clock time `now`:
stops the timer, records `endTime = new Date()`, recounts correct answers
from `selectedAnswers`, sets `score` and `quizCompleted`, and returns the
Result object (`timeTaken = startTime ? new Date() - startTime : 0`). -/
def finishQuiz (st : QuizState) (now : Int) : QuizState × QuizResult :=
  let outcomes := st.questions.map (gradeQuestion st.selectedAnswers)
  let correctAnswers := (outcomes.filter (fun r => r.isCorrect)).length
  ({ st with
      timerActive := false
      endTime := some now
      score := correctAnswers
      quizCompleted := true },
   { score := correctAnswers
     total := st.questions.length
     percentage := jsPercentage correctAnswers st.questions.length
     results := outcomes
     timeTaken := match st.startTime with | some s => now - s | none => 0 })

/-- Object-spread update `{...prev, [questionId]: answerIndex}` on the
answers map, modelled on the association list. -/
def setSelectedAnswer (answers : List (Nat × Nat)) (questionId answerIndex : Nat) :
    List (Nat × Nat) :=
  (questionId, answerIndex) :: answers.filter (fun p => p.1 != questionId)

/-- The `selectAnswer` action from useQuiz.js: a no-op once `quizCompleted`; otherwise
records the chosen index under the current question's id (overwriting).
(JS reads `questions[currentQuestionIndex].id`; out-of-range access cannot
occur in a running session and is modelled as a no-op.) -/
def selectAnswer (st : QuizState) (answerIndex : Nat) : QuizState :=
  if st.quizCompleted then st
  else
    match st.questions[st.currentQuestionIndex]? with
    | none => st
    | some q => { st with selectedAnswers := setSelectedAnswer st.selectedAnswers q.id answerIndex }

/-- The `quizResults` computed value of useQuiz.js: `null` unless
`quizCompleted`, else the Result recomputed from live state
(`timeTaken = startTime && endTime ? endTime - startTime : 0`). -/
def quizResults (st : QuizState) : Option QuizResult :=
  if st.quizCompleted then
    some { score := st.score
           total := st.questions.length
           percentage := jsPercentage st.score st.questions.length
           results := st.questions.map (gradeQuestion st.selectedAnswers)
           timeTaken := match st.startTime, st.endTime with
                        | some s, some e => e - s
                        | _, _ => 0 }
  else none

/-- A raw Open Trivia DB result entry (HTML-entity-escaped strings). -/
structure RawApiQuestion where
  category : String
  difficulty : String
  question : String
  correct_answer : String
  incorrect_answers : List String
deriving DecidableEq

/-- The per-question formatting loop of `fetchQuestionsFromAPI`
(api.js `data.results.map((question, index) => ...)`), with the HTML-entity
decoder and the option shuffler abstracted as parameters.  Note that
`options` holds decoded, shuffled strings while `correctAnswer` keeps the
raw `question.correct_answer` string. -/
def formatQuestionsFrom (decode : String → String) (shuffleOpts : List String → List String) :
    Nat → List RawApiQuestion → List Question
  | _, [] => []
  | index, q :: rest =>
    { id := index + 1
      category := q.category
      difficulty := q.difficulty
      question := decode q.question
      options := shuffleOpts (q.incorrect_answers.map decode ++ [decode q.correct_answer])
      correctAnswer := CorrectAns.text q.correct_answer
      explanation := some ("The correct answer is: " ++ decode q.correct_answer) }
    :: formatQuestionsFrom decode shuffleOpts (index + 1) rest

/-- The `formattedQuestions` list of `fetchQuestionsFromAPI` (indices start at 0,
ids at 1). The final list-level reshuffle only permutes this list. -/
def formatQuestions (decode : String → String) (shuffleOpts : List String → List String)
    (results : List RawApiQuestion) : List Question :=
  formatQuestionsFrom decode shuffleOpts 0 results

/-- The local-branch difficulty filter of `loadQuestions`:
`if (difficulty && q.difficulty !== difficulty) return false; return true;`. -/
def questionFilter (difficulty : Option String) (q : Question) : Bool :=
  match difficulty with
  | some d => q.difficulty == d
  | none => true

/-- The local-branch id defaulting of `loadQuestions`:
`.map((question, index) => ({...question, id: question.id || index + 1}))`.
A JS-falsy id (`undefined`/`0`, both modelled as `0`) is replaced by
`index + 1`. -/
def assignDefaultIds : Nat → List Question → List Question
  | _, [] => []
  | index, q :: rest =>
    { q with id := if q.id = 0 then index + 1 else q.id }
    :: assignDefaultIds (index + 1) rest

/-- The repeat-with-reshuffle loop of `loadQuestions`
(`while (questionData.length < amount) ...`): refill the working pool with a
fresh shuffle of `filteredQuestions` when it is exhausted, `pop()` one
question off its end, and push it with the fresh id
`questionData.length + 1`.  The `none` branch is unreachable whenever the
shuffler sends a non-empty list to a non-empty list (in JS it would push an
object spread from `undefined`). -/
def fillLoop (shuffler : List Question → List Question) (filteredQuestions : List Question) :
    Nat → List Question → List Question → List Question
  | 0, _, questionData => questionData
  | Nat.succ need, questionsPool, questionData =>
    let pool := if questionsPool.isEmpty then shuffler filteredQuestions else questionsPool
    match pool.getLast? with
    | none => questionData
    | some question =>
      fillLoop shuffler filteredQuestions need pool.dropLast
        (questionData ++ [{ question with id := questionData.length + 1 }])

/-- The `useAPI = false` branch of `loadQuestions`: filter by difficulty,
default the ids, shuffle; take `amount` when enough, otherwise repeat with
reshuffling (empty filtered pool yields `[]`). -/
def localQuestionSelection (shuffler : List Question → List Question)
    (dataset : List Question) (difficulty : Option String) (amount : Nat) : List Question :=
  let filteredQuestions := assignDefaultIds 0 (dataset.filter (questionFilter difficulty))
  let shuffledQuestions := shuffler filteredQuestions
  if amount ≤ shuffledQuestions.length then shuffledQuestions.take amount
  else if 0 < shuffledQuestions.length then
    fillLoop shuffler filteredQuestions amount shuffledQuestions []
  else []

/-- The final error message installed by the catch-block fallback of
`loadQuestions`. -/
def offlineNotice : String := "Using offline questions due to connection issues"

/-- The `questions`/`error` state left behind by one run of `loadQuestions`. -/
structure LoadOutcome where
  questions : List Question
  error : Option String
deriving DecidableEq

/-- The `loadQuestions` effect from useQuiz.js, as a function of the remote fetch
outcome (`apiOutcome`), the local dataset (`src/data/questions.json`), and
the abstract shuffler.  In the `useAPI` branch a thrown error — or a fetch
that returned zero questions, which throws `'No questions found'` — lands
in the catch block, which installs `shuffleQuestions(questionsData.questions)
.slice(0, amount)` and then overwrites the error with the non-fatal
`offlineNotice` (the inner fallback try-block cannot throw).  Without
`useAPI`, a zero-length local selection leaves the previous `questions`
state and the fatal `'No questions found'` message. -/
def loadQuestions (shuffler : List Question → List Question) (dataset : List Question)
    (useAPI : Bool) (apiOutcome : Except String (List Question))
    (amount : Nat) (difficulty : Option String) (prevQuestions : List Question) : LoadOutcome :=
  if useAPI then
    match apiOutcome with
    | Except.ok qs =>
      if qs.length = 0 then
        { questions := (shuffler dataset).take amount, error := some offlineNotice }
      else { questions := qs, error := none }
    | Except.error _ =>
      { questions := (shuffler dataset).take amount, error := some offlineNotice }
  else
    let questionData := localQuestionSelection shuffler dataset difficulty amount
    if questionData.length = 0 then
      { questions := prevQuestions, error := some "No questions found" }
    else { questions := questionData, error := none }

/-- Character-list version of `String.startsWith` for the substring test. -/
def startsWithChars : List Char → List Char → Bool
  | [], _ => true
  | _ :: _, [] => false
  | a :: as, b :: bs => a == b && startsWithChars as bs

/-- Character-list substring containment. -/
def hasSubChars (needle : List Char) : List Char → Bool
  | [] => needle.isEmpty
  | c :: rest => startsWithChars needle (c :: rest) || hasSubChars needle rest

/-- JS `hay.includes(needle)`. -/
def includesStr (needle hay : String) : Bool :=
  hasSubChars needle.toList hay.toList

/-- The retry test of `fetchQuestionsWithRetry`:
`error.message.includes('Rate limit') || error.message.includes('429')`. -/
def isRateLimitErrorMsg (e : String) : Bool :=
  includesStr "Rate limit" e || includesStr "429" e

/-- The user-facing rate-limit message produced by `fetchQuestionsFromAPI`
for `RATE_LIMIT_EXCEEDED` / `RATE_LIMIT` errors. -/
def rateLimitMsg : String :=
  "Rate limit exceeded. Please wait a few seconds and try again, or switch to offline mode."

/-- The retry loop of `fetchQuestionsWithRetry`
(`for (let attempt = 1; attempt <= maxRetries; attempt++)`), with the
outcome of each numbered attempt supplied by `outcomes` and the performed
`delay` calls collected in milliseconds.  `remaining` counts the loop
iterations still allowed (`maxRetries - attempt + 1`); when it reaches `0`
the loop has exhausted all attempts and the last observed error is thrown.
Before attempt `> 1` the loop waits `attempt * 3000` ms; after a
rate-limited failure that is not the final attempt it additionally waits a
fixed `10000` ms; any other failure is rethrown immediately. -/
def retryAux (outcomes : Nat → Except String (List Question)) :
    Nat → Nat → String → List Nat → Except String (List Question) × List Nat
  | 0, _, lastError, waits => (Except.error lastError, waits)
  | Nat.succ remaining, attempt, _, waits =>
    let waits1 := if 1 < attempt then waits ++ [attempt * 3000] else waits
    match outcomes attempt with
    | Except.ok qs => (Except.ok qs, waits1)
    | Except.error e =>
      if isRateLimitErrorMsg e then
        if 0 < remaining then
          retryAux outcomes remaining (attempt + 1) e (waits1 ++ [10000])
        else retryAux outcomes remaining (attempt + 1) e waits1
      else (Except.error e, waits1)

/-- Entry point `fetchQuestionsWithRetry(amount, category, difficulty, type, maxRetries)`
with the per-attempt fetch outcomes abstracted; returns the result together
with the list of delays performed.  (`lastError` starts out JS-`undefined`,
modelled as the empty string; it is only thrown when `maxRetries = 0`.) -/
def fetchQuestionsWithRetry (outcomes : Nat → Except String (List Question))
    (maxRetries : Nat) : Except String (List Question) × List Nat :=
  retryAux outcomes maxRetries 1 "" []

/-- Constant `MIN_REQUEST_INTERVAL = 5000` ms from api.js. -/
def MIN_REQUEST_INTERVAL : Int := 5000

/-- The send instant of `rateLimitedFetch`, as a function of the module-level
`lastRequestTime`, the invocation instant `now`, and a non-negative `slack`
accounting for `delay(waitTime)` resolving no earlier than requested:
if less than `MIN_REQUEST_INTERVAL` has elapsed it awaits the remainder (so
the request leaves at `lastRequestTime + MIN_REQUEST_INTERVAL + slack`),
otherwise it sends immediately.  `lastRequestTime` is then set to
`Date.now()` at this send instant. -/
def rateLimitedSendTime (lastRequestTime now slack : Int) : Int :=
  if now - lastRequestTime < MIN_REQUEST_INTERVAL then
    lastRequestTime + MIN_REQUEST_INTERVAL + slack
  else now

/-- The score payload assembled by the Quiz page on completion. -/
structure ScoreData where
  score : Nat
  total : Nat
  percentage : Int
  difficulty : String
  timeTaken : Int
  category : String
deriving DecidableEq

/-- A stored high-score entry: the payload plus
`id: Date.now(), timestamp: new Date().toISOString()`. -/
structure ScoreEntry where
  score : Nat
  total : Nat
  percentage : Int
  difficulty : String
  timeTaken : Int
  category : String
  id : Nat
  timestamp : String
deriving DecidableEq

/-- The stored entry `{...scoreData, id: Date.now(), timestamp: new Date().toISOString()}`. -/
def newScoreEntry (scoreData : ScoreData) (now : Nat) (timestamp : String) : ScoreEntry :=
  { score := scoreData.score
    total := scoreData.total
    percentage := scoreData.percentage
    difficulty := scoreData.difficulty
    timeTaken := scoreData.timeTaken
    category := scoreData.category
    id := now
    timestamp := timestamp }

/-- Stable insertion of an entry into a percentage-descending list: the new
entry goes before the first strictly smaller percentage, hence after every
equal one. -/
def insertScore (x : ScoreEntry) : List ScoreEntry → List ScoreEntry
  | [] => [x]
  | y :: ys => if y.percentage < x.percentage then x :: y :: ys else y :: insertScore x ys

/-- The comparator sort `.sort((a, b) => b.percentage - a.percentage)`: the ECMAScript sort is
stable, so it is the stable descending sort by percentage, modelled as a
left-to-right stable insertion sort. -/
def sortScoresDesc (l : List ScoreEntry) : List ScoreEntry :=
  l.foldl (fun acc x => insertScore x acc) []

/-- The `addScore` operation from useLocalStorage.js (and `saveScore` from api.js):
append the new entry, re-sort by percentage descending, keep the top 10. -/
def addScore (prevScores : List ScoreEntry) (scoreData : ScoreData)
    (now : Nat) (timestamp : String) : List ScoreEntry :=
  (sortScoresDesc (prevScores ++ [newScoreEntry scoreData now timestamp])).take 10

/-- Accessor `getBestScore`: `highScores.length > 0 ? highScores[0] : null`. -/
def getBestScore (highScores : List ScoreEntry) : Option ScoreEntry :=
  highScores.head?

/-- The persisted statistics snapshot of `useQuizStats`.  `averageScore` is
`Option Nat` because `Math.round((totalCorrect / totalQuestions) * 100)` is
`NaN` when `totalQuestions = 0`. -/
structure QuizStats where
  totalQuizzes : Nat
  totalQuestions : Nat
  totalCorrect : Nat
  averageScore : Option Nat
  bestStreak : Nat
  currentStreak : Nat
  favoriteCategory : Option String
  timeSpent : Int
  lastPlayed : Option String
deriving DecidableEq

/-- The zeroed initial statistics object. -/
def initialStats : QuizStats :=
  { totalQuizzes := 0, totalQuestions := 0, totalCorrect := 0
    averageScore := some 0, bestStreak := 0, currentStreak := 0
    favoriteCategory := none, timeSpent := 0, lastPlayed := none }

/-- The test `quizResult.percentage >= 70` in JS: comparison with `NaN` is false. -/
def pctAtLeast70 : Option Nat → Bool
  | some p => 70 ≤ p
  | none => false

/-- The `updateStats` operation from useLocalStorage.js, called at ISO time `now`. -/
def updateStats (now : String) (prevStats : QuizStats) (quizResult : QuizResult) : QuizStats :=
  let newTotalQuestions := prevStats.totalQuestions + quizResult.total
  let newTotalCorrect := prevStats.totalCorrect + quizResult.score
  let newCurrentStreak :=
    if pctAtLeast70 quizResult.percentage then prevStats.currentStreak + 1 else 0
  { prevStats with
      totalQuizzes := prevStats.totalQuizzes + 1
      totalQuestions := newTotalQuestions
      totalCorrect := newTotalCorrect
      averageScore := jsPercentage newTotalCorrect newTotalQuestions
      currentStreak := newCurrentStreak
      bestStreak := max prevStats.bestStreak newCurrentStreak
      timeSpent := prevStats.timeSpent + quizResult.timeTaken
      lastPlayed := some now }

/-- A representative local-dataset question whose `correctAnswer` is an
option index, as the Question component expects. -/
def localIdxQuestion : Question :=
  { id := 1, category := "General Knowledge", difficulty := "easy"
    question := "What is 2 + 2?", options := ["3", "4", "5", "6"]
    correctAnswer := CorrectAns.idx 1 }

/-- A raw Open Trivia DB entry used as the concrete failing input. -/
def rawParisQuestion : RawApiQuestion :=
  { category := "Geography", difficulty := "easy"
    question := "What is the capital of France?"
    correct_answer := "Paris", incorrect_answers := ["London", "Rome", "Berlin"] }

/-- The API question above after formatting, with identity decoder and
identity shuffler: options `[London, Rome, Berlin, Paris]`, the correct
option at index 3. -/
def apiParisQuestions : List Question := formatQuestions id id [rawParisQuestion]

/-- A running session over the API question where the user chose option
index 3 — the index of the string "Paris", the correct option. -/
def parisAnsweredState : QuizState :=
  { questions := apiParisQuestions, selectedAnswers := [(1, 3)], startTime := some 0 }

/-- A completed one-question session fixture for the idempotence claim. -/
def c2State : QuizState :=
  { questions := [localIdxQuestion], selectedAnswers := [(1, 1)], startTime := some 0 }

/-- A completed session whose question list is empty. -/
def emptyCompletedState : QuizState :=
  { questions := [], quizCompleted := true, startTime := some 0, endTime := some 0 }

/-- The error message produced by `fetchQuestionsFromAPI` for a transport
failure, used as a representative classified non-rate-limit error. -/
def networkErrMsg : String :=
  "Network error. Please check your internet connection or try offline mode."

/-- Score payloads for the concrete ledger example (20%, 95%, 60%). -/
def d20 : ScoreData :=
  { score := 2, total := 10, percentage := 20, difficulty := "easy", timeTaken := 0, category := "Mixed" }

/-- A 95% score payload. -/
def d95 : ScoreData :=
  { score := 19, total := 20, percentage := 95, difficulty := "easy", timeTaken := 0, category := "Mixed" }

/-- A 60% score payload. -/
def d60 : ScoreData :=
  { score := 6, total := 10, percentage := 60, difficulty := "easy", timeTaken := 0, category := "Mixed" }

/-- Quiz results with percentages 80 / 50 / 90 for the streak example. -/
def r80 : QuizResult :=
  { score := 8, total := 10, percentage := some 80, results := [], timeTaken := 0 }

/-- A 50% result. -/
def r50 : QuizResult :=
  { score := 5, total := 10, percentage := some 50, results := [], timeTaken := 0 }

/-- A 90% result. -/
def r90 : QuizResult :=
  { score := 9, total := 10, percentage := some 90, results := [], timeTaken := 0 }

/-- The per-attempt outcome pattern of testable property 8: the first two
attempts rate-limited, the third (and any later) successful. -/
def rlScenario (qs : List Question) : Nat → Except String (List Question) :=
  fun n => if n ≤ 2 then Except.error rateLimitMsg else Except.ok qs

/-- Two questions carry the same content: prompt, options, and correct
answer (the id may differ). -/
def sameContent (a b : Question) : Prop :=
  a.question = b.question ∧ a.options = b.options ∧ a.correctAnswer = b.correctAnswer

instance (a b : Question) : Decidable (sameContent a b) := by
  unfold sameContent
  infer_instance

/-- A local-pool fixture question with a JS-falsy id. -/
def poolQA : Question :=
  { id := 0, category := "Science", difficulty := "easy"
    question := "Water is H2O?", options := ["True", "False"]
    correctAnswer := CorrectAns.idx 0 }

/-- A local-pool fixture question with a pre-existing id. -/
def poolQB : Question :=
  { id := 7, category := "History", difficulty := "easy"
    question := "Rome fell in 476?", options := ["True", "False"]
    correctAnswer := CorrectAns.idx 0 }

/-- A two-question local dataset, smaller than the requested count 5. -/
def smallDataset : List Question := [poolQA, poolQB]

/-- The sufficient direction of the claimed fallback contract, in the
spec's words: when remote sourcing fails with a classified error and the
local fallback yields zero questions, the session surfaces the classified
error (the fatal `errored` state), not the offline notice. -/
def fallbackErroredClaim : Prop :=
  ∀ (shuffler : List Question → List Question) (dataset : List Question)
    (amount : Nat) (difficulty : Option String) (prevQuestions : List Question) (e : String),
    (shuffler dataset).take amount = [] →
    (loadQuestions shuffler dataset true (Except.error e) amount difficulty prevQuestions).error
      = some e

-- Helper lemmas -------------------------------------------------------------

theorem formatQuestionsFrom_correctAnswer (decode : String → String)
    (shuffleOpts : List String → List String) :
    ∀ (results : List RawApiQuestion) (index : Nat) (q : Question),
      q ∈ formatQuestionsFrom decode shuffleOpts index results →
      ∃ s, q.correctAnswer = CorrectAns.text s := by
  intro results
  induction results with
  | nil => intro index q hq; simp [formatQuestionsFrom] at hq
  | cons r rest ih =>
    intro index q hq
    simp only [formatQuestionsFrom, List.mem_cons] at hq
    rcases hq with h | h
    · exact ⟨r.correct_answer, by rw [h]⟩
    · exact ih (index + 1) q h

-- Sanity checks of the embedding on concrete inputs.
example :
    (finishQuiz
      { questions := [localIdxQuestion], selectedAnswers := [(1, 1)]
        startTime := some 100 } 600).2.score = 1 := by decide

example : calculatePercentage 3 5 = 60 := by decide
example : calculatePercentage 0 0 = 0 := by decide
example : jsPercentage 0 0 = none := by decide
example : mathRoundPct 1 8 = 13 := by decide

-- C1 ------------------------------------------------------------------------

/-- C1: a question is claimed to count correct iff the recorded chosen
option index equals the question's correct-answer index, for remote as well
as local questions.  The code violates this for remote questions: the API
formatting stores the raw `correct_answer` string in `correctAnswer`, and
`finishQuiz` compares the numeric chosen index to it with `===`, which is
always false — a correctly answered API question is scored incorrect.  The
theorem records: (1) a question whose `correctAnswer` is a string is never
counted correct under any answers map; (2) every API-formatted question has
a string `correctAnswer`; (3) for index-style (local) questions the claimed
rule holds; (4) a skipped question is never correct; and (5–6) the concrete
failing input: the Paris question has its correct option at index 3, yet a
session that chose index 3 scores 0. -/
theorem c1_remote_scoring_bug :
    (∀ (selectedAnswers : List (Nat × Nat)) (q : Question) (s : String),
        q.correctAnswer = CorrectAns.text s →
        (gradeQuestion selectedAnswers q).isCorrect = false)
    ∧ (∀ (decode : String → String) (shuffleOpts : List String → List String)
         (results : List RawApiQuestion) (q : Question),
        q ∈ formatQuestions decode shuffleOpts results →
        ∃ s, q.correctAnswer = CorrectAns.text s)
    ∧ (∀ (selectedAnswers : List (Nat × Nat)) (q : Question) (k : Nat),
        q.correctAnswer = CorrectAns.idx k →
        (gradeQuestion selectedAnswers q).isCorrect
          = (selectedAnswers.lookup q.id == some k))
    ∧ (∀ (selectedAnswers : List (Nat × Nat)) (q : Question),
        selectedAnswers.lookup q.id = none →
        (gradeQuestion selectedAnswers q).isCorrect = false)
    ∧ apiParisQuestions.map Question.options = [["London", "Rome", "Berlin", "Paris"]]
    ∧ (finishQuiz parisAnsweredState 9000).2.score = 0 := by
  refine ⟨?_, ?_, ?_, ?_, by decide, by decide⟩
  · intro selectedAnswers q s h
    show jsStrictEq (selectedAnswers.lookup q.id) q.correctAnswer = false
    rw [h]
    cases selectedAnswers.lookup q.id <;> rfl
  · intro decode shuffleOpts results q hq
    exact formatQuestionsFrom_correctAnswer decode shuffleOpts results 0 q hq
  · intro selectedAnswers q k h
    show jsStrictEq (selectedAnswers.lookup q.id) q.correctAnswer
        = (selectedAnswers.lookup q.id == some k)
    rw [h]
    cases selectedAnswers.lookup q.id <;> rfl
  · intro selectedAnswers q h
    show jsStrictEq (selectedAnswers.lookup q.id) q.correctAnswer = false
    rw [h]
    cases q.correctAnswer <;> rfl

/-- C1 witness: the general clauses applied at concrete inputs. -/
theorem c1_remote_scoring_bug_witness :
    (gradeQuestion [(1, 3)] (apiParisQuestions.headD localIdxQuestion)).isCorrect = false
    ∧ (gradeQuestion [] localIdxQuestion).isCorrect = false
    ∧ (gradeQuestion [(1, 1)] localIdxQuestion).isCorrect
        = ([(1, 1)].lookup localIdxQuestion.id == some 1) :=
  ⟨c1_remote_scoring_bug.1 [(1, 3)] (apiParisQuestions.headD localIdxQuestion) "Paris" rfl,
   c1_remote_scoring_bug.2.2.2.1 [] localIdxQuestion rfl,
   c1_remote_scoring_bug.2.2.1 [(1, 1)] localIdxQuestion 1 rfl⟩

-- C2 ------------------------------------------------------------------------

/-- C2 counterexample: for a session already completed by `finishQuiz` at
time 5000, calling `finishQuiz` again at time 9000 returns a different
Result (its `timeTaken` is 9000 instead of 5000) and moves the recorded
`endTime` from 5000 to 9000 — the claimed idempotence fails. -/
theorem c2_counterexample :
    (finishQuiz c2State 5000).1.quizCompleted = true
    ∧ (finishQuiz (finishQuiz c2State 5000).1 9000).2 ≠ (finishQuiz c2State 5000).2
    ∧ (finishQuiz (finishQuiz c2State 5000).1 9000).1.endTime
        ≠ (finishQuiz c2State 5000).1.endTime := by
  refine ⟨rfl, ?_, ?_⟩ <;> decide

/-- C2 amended: a second `finishQuiz` call on a completed session recomputes
the Result; the correct count, total, percentage and per-question outcomes
are unchanged (the answers map cannot change after completion, since
`selectAnswer` is a no-op then), but the call re-records `endTime` to the
later call time and returns `timeTaken` measured to that later time. -/
theorem c2_finishQuiz_recompute (st : QuizState) (t1 t2 : Int) :
    (finishQuiz (finishQuiz st t1).1 t2).2.score = (finishQuiz st t1).2.score
    ∧ (finishQuiz (finishQuiz st t1).1 t2).2.total = (finishQuiz st t1).2.total
    ∧ (finishQuiz (finishQuiz st t1).1 t2).2.percentage = (finishQuiz st t1).2.percentage
    ∧ (finishQuiz (finishQuiz st t1).1 t2).2.results = (finishQuiz st t1).2.results
    ∧ (finishQuiz (finishQuiz st t1).1 t2).1.endTime = some t2
    ∧ (finishQuiz (finishQuiz st t1).1 t2).2.timeTaken
        = (match st.startTime with | some s => t2 - s | none => 0)
    ∧ ∀ i, selectAnswer (finishQuiz st t1).1 i = (finishQuiz st t1).1 :=
  ⟨rfl, rfl, rfl, rfl, rfl, rfl, fun _ => rfl⟩

-- C3 ------------------------------------------------------------------------

/-- C3 counterexample: on an empty question list `finishQuiz` and the
`quizResults` derivation produce the non-numeric `NaN` (modelled `none`)
as the percentage — not the claimed 0. -/
theorem c3_counterexample :
    (finishQuiz emptyCompletedState 0).2.percentage = none
    ∧ (quizResults emptyCompletedState).map QuizResult.percentage = some none
    ∧ (none : Option Nat) ≠ some 0 := by
  refine ⟨rfl, rfl, by decide⟩

/-- C3 amended: `calculatePercentage` is total, returns 0 when `total = 0`
and the platform rounding of `100 * correct / total` otherwise; but the
percentage computed by `finishQuiz` and by the `quizResults` derivation has
no zero guard: it equals the platform rounding when the question list is
non-empty and is `NaN` (non-numeric, modelled `none`) on an empty list. -/
theorem c3_percentage_paths :
    (∀ c : Nat, calculatePercentage c 0 = 0)
    ∧ (∀ c t : Nat, t ≠ 0 → calculatePercentage c t = mathRoundPct c t)
    ∧ (∀ (st : QuizState) (now : Int), st.questions ≠ [] →
        (finishQuiz st now).2.percentage
          = some (mathRoundPct (finishQuiz st now).2.score st.questions.length))
    ∧ (∀ (st : QuizState) (now : Int), st.questions = [] →
        (finishQuiz st now).2.percentage = none)
    ∧ (∀ st : QuizState, st.quizCompleted = true → st.questions = [] →
        (quizResults st).map QuizResult.percentage = some none)
    ∧ (∀ st : QuizState, st.quizCompleted = true → st.questions ≠ [] →
        (quizResults st).map QuizResult.percentage
          = some (some (mathRoundPct st.score st.questions.length))) := by
  have hlen : ∀ l : List Question, l ≠ [] → l.length ≠ 0 := by
    intro l h h0
    exact h (List.length_eq_zero.mp h0)
  refine ⟨?_, ?_, ?_, ?_, ?_, ?_⟩
  · intro c; rfl
  · intro c t ht; simp [calculatePercentage, ht]
  · intro st now h
    show jsPercentage _ st.questions.length = _
    simp [jsPercentage, hlen st.questions h, finishQuiz]
  · intro st now h
    show jsPercentage _ st.questions.length = _
    simp [jsPercentage, h]
  · intro st hc h
    simp [quizResults, hc, jsPercentage, h]
  · intro st hc h
    simp [quizResults, hc, jsPercentage, hlen st.questions h]

/-- C3 witness: the percentage clauses applied at concrete inputs. -/
theorem c3_percentage_paths_witness :
    calculatePercentage 7 0 = 0
    ∧ calculatePercentage 3 5 = mathRoundPct 3 5
    ∧ (finishQuiz c2State 600).2.percentage
        = some (mathRoundPct (finishQuiz c2State 600).2.score c2State.questions.length)
    ∧ (finishQuiz emptyCompletedState 0).2.percentage = none :=
  ⟨c3_percentage_paths.1 7,
   c3_percentage_paths.2.1 3 5 (by decide),
   c3_percentage_paths.2.2.1 c2State 600 (by decide),
   c3_percentage_paths.2.2.2.1 emptyCompletedState 0 rfl⟩

-- C4 ------------------------------------------------------------------------

/-- C4 counterexample: with an empty local dataset, a remote failure with a
classified network error still surfaces only the non-fatal offline notice
(with an empty question list) — the claimed fatal `errored` state with the
classified error is never entered. -/
theorem c4_counterexample : ¬ fallbackErroredClaim := by
  intro h
  have h2 := h id [] 5 none [] networkErrMsg rfl
  exact absurd h2 (by decide)

/-- C4 amended: when remote sourcing fails during session start (a thrown
classified error, or a fetch yielding zero questions), the session always
installs the shuffled local slice and surfaces only the non-fatal offline
notice — even when that fallback yields zero questions; the fatal
classified error is never surfaced in remote mode.  A successful non-empty
remote fetch installs the fetched questions with no error. -/
theorem c4_fallback_behavior (shuffler : List Question → List Question)
    (dataset : List Question) (amount : Nat) (difficulty : Option String)
    (prevQuestions : List Question) :
    (∀ e, loadQuestions shuffler dataset true (Except.error e) amount difficulty prevQuestions
        = { questions := (shuffler dataset).take amount, error := some offlineNotice })
    ∧ loadQuestions shuffler dataset true (Except.ok []) amount difficulty prevQuestions
        = { questions := (shuffler dataset).take amount, error := some offlineNotice }
    ∧ (∀ qs, qs ≠ [] →
        loadQuestions shuffler dataset true (Except.ok qs) amount difficulty prevQuestions
          = { questions := qs, error := none }) := by
  refine ⟨fun e => rfl, rfl, ?_⟩
  intro qs hqs
  have : qs.length ≠ 0 := fun h0 => hqs (List.length_eq_zero.mp h0)
  simp [loadQuestions, this]

/-- C4 witness: the fallback behaviour at concrete inputs, including the
empty-dataset case of the counterexample. -/
theorem c4_fallback_behavior_witness :
    loadQuestions id [] true (Except.error networkErrMsg) 5 none []
      = { questions := [], error := some offlineNotice }
    ∧ loadQuestions id [localIdxQuestion] true (Except.ok [localIdxQuestion]) 5 none []
      = { questions := [localIdxQuestion], error := none } :=
  ⟨(c4_fallback_behavior id [] 5 none []).1 networkErrMsg,
   (c4_fallback_behavior id [localIdxQuestion] 5 none []).2.2 [localIdxQuestion] (by decide)⟩

-- C6 ------------------------------------------------------------------------

/-- C6: `rateLimitedFetch` never lets two consecutive outbound requests
leave less than `MIN_REQUEST_INTERVAL` (5 s) apart: with `lastRequestTime`
the instant of the previous send, the next send instant is at least
`MIN_REQUEST_INTERVAL` later; the function never sends earlier than it was
invoked (it delays internally instead of failing or sending early), and
with an exact delay a too-early invocation sends precisely when the
interval has elapsed. -/
theorem c6_min_request_interval (lastRequestTime now slack : Int) (hs : 0 ≤ slack) :
    MIN_REQUEST_INTERVAL ≤ rateLimitedSendTime lastRequestTime now slack - lastRequestTime
    ∧ now ≤ rateLimitedSendTime lastRequestTime now slack
    ∧ (now - lastRequestTime < MIN_REQUEST_INTERVAL →
        rateLimitedSendTime lastRequestTime now 0 = lastRequestTime + MIN_REQUEST_INTERVAL) := by
  unfold rateLimitedSendTime MIN_REQUEST_INTERVAL at *
  refine ⟨?_, ?_, ?_⟩ <;> split_ifs with h <;> omega

/-- C6 witness: a request issued 1 s after the previous send leaves exactly
at the 5 s boundary. -/
theorem c6_min_request_interval_witness :
    MIN_REQUEST_INTERVAL ≤ rateLimitedSendTime 0 1000 0 - 0
    ∧ (1000 : Int) ≤ rateLimitedSendTime 0 1000 0
    ∧ ((1000 : Int) - 0 < MIN_REQUEST_INTERVAL →
        rateLimitedSendTime 0 1000 0 = 0 + MIN_REQUEST_INTERVAL) :=
  c6_min_request_interval 0 1000 0 (by decide)

-- C9 ------------------------------------------------------------------------

/-- C9: every `updateStats` call sets `currentStreak` to the previous value
plus one when the result's percentage is at least 70 and to 0 otherwise,
and sets `bestStreak` to the maximum of the previous `bestStreak` and the
new `currentStreak`; three consecutive updates with percentages 80, 50, 90
from zeroed stats end with `currentStreak = 1` and `bestStreak = 1`. -/
theorem c9_streak_update :
    (∀ (now : String) (prevStats : QuizStats) (r : QuizResult) (p : Nat),
        r.percentage = some p →
        (updateStats now prevStats r).currentStreak
          = if 70 ≤ p then prevStats.currentStreak + 1 else 0)
    ∧ (∀ (now : String) (prevStats : QuizStats) (r : QuizResult),
        (updateStats now prevStats r).bestStreak
          = max prevStats.bestStreak (updateStats now prevStats r).currentStreak)
    ∧ (updateStats "t3" (updateStats "t2" (updateStats "t1" initialStats r80) r50) r90).currentStreak
        = 1
    ∧ (updateStats "t3" (updateStats "t2" (updateStats "t1" initialStats r80) r50) r90).bestStreak
        = 1 := by
  refine ⟨?_, fun now prevStats r => rfl, by decide, by decide⟩
  intro now prevStats r p h
  simp [updateStats, pctAtLeast70, h]

/-- C9 witness: the streak formula applied to the first concrete update. -/
theorem c9_streak_update_witness :
    (updateStats "t1" initialStats r80).currentStreak
      = if 70 ≤ 80 then initialStats.currentStreak + 1 else 0 :=
  c9_streak_update.1 "t1" initialStats r80 80 rfl

-- C5 ------------------------------------------------------------------------

theorem retryAux_not_rate_limited (outcomes : Nat → Except String (List Question))
    (remaining attempt : Nat) (lastError e : String) (waits : List Nat)
    (hout : outcomes attempt = Except.error e) (hrl : isRateLimitErrorMsg e = false) :
    retryAux outcomes (remaining + 1) attempt lastError waits
      = (Except.error e, if 1 < attempt then waits ++ [attempt * 3000] else waits) := by
  simp [retryAux, hout, hrl]

theorem retryAux_rate_limited_step (outcomes : Nat → Except String (List Question))
    (remaining attempt : Nat) (lastError e : String) (waits : List Nat)
    (hout : outcomes attempt = Except.error e) (hrl : isRateLimitErrorMsg e = true)
    (hrem : 0 < remaining) :
    retryAux outcomes (remaining + 1) attempt lastError waits
      = retryAux outcomes remaining (attempt + 1) e
          ((if 1 < attempt then waits ++ [attempt * 3000] else waits) ++ [10000]) := by
  simp [retryAux, hout, hrl, hrem]

theorem retryAux_exhaust (outcomes : Nat → Except String (List Question)) :
    ∀ (r attempt : Nat) (lastError : String) (waits : List Nat),
      (∀ i, i ≤ r → ∃ e, outcomes (attempt + i) = Except.error e
          ∧ isRateLimitErrorMsg e = true) →
      ∃ e, outcomes (attempt + r) = Except.error e
        ∧ (retryAux outcomes (r + 1) attempt lastError waits).1 = Except.error e := by
  intro r
  induction r with
  | zero =>
    intro attempt lastError waits h
    obtain ⟨e, he, hrl⟩ := h 0 (Nat.le_refl 0)
    rw [Nat.add_zero] at he
    refine ⟨e, by rw [Nat.add_zero]; exact he, ?_⟩
    simp [retryAux, he, hrl]
  | succ r ih =>
    intro attempt lastError waits h
    obtain ⟨e0, he0, hrl0⟩ := h 0 (Nat.zero_le _)
    rw [Nat.add_zero] at he0
    have hrest : ∀ i, i ≤ r → ∃ e, outcomes (attempt + 1 + i) = Except.error e
        ∧ isRateLimitErrorMsg e = true := by
      intro i hi
      have := h (i + 1) (Nat.succ_le_succ hi)
      rwa [show attempt + (i + 1) = attempt + 1 + i by omega] at this
    obtain ⟨e, he, hres⟩ := ih (attempt + 1)
      e0 ((if 1 < attempt then waits ++ [attempt * 3000] else waits) ++ [10000]) hrest
    refine ⟨e, by rwa [show attempt + (r + 1) = attempt + 1 + r by omega], ?_⟩
    rw [retryAux_rate_limited_step outcomes (r + 1) attempt lastError e0 waits he0 hrl0
      (Nat.succ_pos r)]
    exact hres

/-- C5: `fetchQuestionsWithRetry` retries only attempts whose failure
message is classified rate-limited, waiting `attempt * 3000` ms before each
retry attempt plus a fixed 10000 ms after each rate-limit failure; any
other error is rethrown immediately with no further attempt and no delay;
exhausting all attempts surfaces the last observed error.  Concretely,
with three attempts allowed, two rate-limited attempts followed by a
success return the successful question list (after delays
10 s, 2×3 s, 10 s, 3×3 s), while three rate-limited attempts (a run that
would need a fourth) surface the rate-limit error. -/
theorem c5_fetch_retry :
    (∀ (outcomes : Nat → Except String (List Question)) (maxRetries : Nat) (e : String),
        0 < maxRetries → outcomes 1 = Except.error e → isRateLimitErrorMsg e = false →
        fetchQuestionsWithRetry outcomes maxRetries = (Except.error e, []))
    ∧ (∀ (outcomes : Nat → Except String (List Question))
         (remaining attempt : Nat) (lastError e : String) (waits : List Nat),
        outcomes attempt = Except.error e → isRateLimitErrorMsg e = false →
        retryAux outcomes (remaining + 1) attempt lastError waits
          = (Except.error e, if 1 < attempt then waits ++ [attempt * 3000] else waits))
    ∧ (∀ (outcomes : Nat → Except String (List Question)) (r : Nat),
        (∀ i, i ≤ r → ∃ e, outcomes (1 + i) = Except.error e
            ∧ isRateLimitErrorMsg e = true) →
        ∃ e, outcomes (1 + r) = Except.error e
          ∧ (fetchQuestionsWithRetry outcomes (r + 1)).1 = Except.error e)
    ∧ (∀ qs, fetchQuestionsWithRetry (rlScenario qs) 3
        = (Except.ok qs, [10000, 6000, 10000, 9000]))
    ∧ fetchQuestionsWithRetry (fun _ => Except.error rateLimitMsg) 3
        = (Except.error rateLimitMsg, [10000, 6000, 10000, 9000]) := by
  refine ⟨?_, retryAux_not_rate_limited, ?_, fun qs => rfl, rfl⟩
  · intro outcomes maxRetries e hpos hout hrl
    obtain ⟨m, rfl⟩ := Nat.exists_eq_add_of_lt hpos
    rw [Nat.zero_add]
    exact retryAux_not_rate_limited outcomes m 1 "" e [] hout hrl
  · intro outcomes r h
    exact retryAux_exhaust outcomes r 1 "" [] h

-- Sorting lemmas for the score ledger --------------------------------------

theorem insertScore_perm (x : ScoreEntry) (l : List ScoreEntry) :
    (insertScore x l).Perm (x :: l) := by
  induction l with
  | nil => exact List.Perm.refl _
  | cons y ys ih =>
    simp only [insertScore]
    by_cases h : y.percentage < x.percentage
    · rw [if_pos h]
    · rw [if_neg h]
      exact (ih.cons y).trans (List.Perm.swap x y ys)

theorem insertScore_sorted (x : ScoreEntry) (l : List ScoreEntry)
    (h : List.Pairwise (fun a b => b.percentage ≤ a.percentage) l) :
    List.Pairwise (fun a b => b.percentage ≤ a.percentage) (insertScore x l) := by
  induction l with
  | nil => simp [insertScore]
  | cons y ys ih =>
    rcases List.pairwise_cons.mp h with ⟨hy, hys⟩
    simp only [insertScore]
    by_cases hxy : y.percentage < x.percentage
    · rw [if_pos hxy]
      refine List.pairwise_cons.mpr ⟨?_, h⟩
      intro b hb
      rcases List.mem_cons.mp hb with rfl | hb
      · exact le_of_lt hxy
      · exact le_trans (hy b hb) (le_of_lt hxy)
    · rw [if_neg hxy]
      refine List.pairwise_cons.mpr ⟨?_, ih hys⟩
      intro b hb
      have hb2 : b ∈ x :: ys := (insertScore_perm x ys).mem_iff.mp hb
      rcases List.mem_cons.mp hb2 with rfl | hb2
      · exact not_lt.mp hxy
      · exact hy b hb2

theorem foldl_insertScore_perm :
    ∀ (l acc : List ScoreEntry),
      (l.foldl (fun acc x => insertScore x acc) acc).Perm (acc ++ l) := by
  intro l
  induction l with
  | nil => intro acc; simp
  | cons x xs ih =>
    intro acc
    simp only [List.foldl_cons]
    have h2 : (insertScore x acc ++ xs).Perm ((x :: acc) ++ xs) :=
      (insertScore_perm x acc).append_right xs
    have h3 : ((x :: acc) ++ xs).Perm (acc ++ x :: xs) := by
      simp only [List.cons_append]
      exact List.perm_middle.symm
    exact ((ih (insertScore x acc)).trans h2).trans h3

theorem sortScoresDesc_perm (l : List ScoreEntry) : (sortScoresDesc l).Perm l := by
  have := foldl_insertScore_perm l []
  simpa [sortScoresDesc] using this

theorem foldl_insertScore_sorted :
    ∀ (l acc : List ScoreEntry),
      List.Pairwise (fun a b => b.percentage ≤ a.percentage) acc →
      List.Pairwise (fun a b => b.percentage ≤ a.percentage)
        (l.foldl (fun acc x => insertScore x acc) acc) := by
  intro l
  induction l with
  | nil => intro acc hacc; exact hacc
  | cons x xs ih =>
    intro acc hacc
    simp only [List.foldl_cons]
    exact ih (insertScore x acc) (insertScore_sorted x acc hacc)

theorem sortScoresDesc_sorted (l : List ScoreEntry) :
    List.Pairwise (fun a b => b.percentage ≤ a.percentage) (sortScoresDesc l) :=
  foldl_insertScore_sorted l [] List.Pairwise.nil

theorem filter_pct_eq_nil (p : Int) (l : List ScoreEntry)
    (h : ∀ e ∈ l, e.percentage < p) :
    l.filter (fun e => e.percentage == p) = [] := by
  refine List.filter_eq_nil_iff.mpr ?_
  intro a ha
  simp only [beq_iff_eq]
  exact ne_of_lt (h a ha)

theorem insertScore_filter (p : Int) (x : ScoreEntry) :
    ∀ l : List ScoreEntry,
      List.Pairwise (fun a b => b.percentage ≤ a.percentage) l →
      (insertScore x l).filter (fun e => e.percentage == p)
        = if x.percentage == p
          then l.filter (fun e => e.percentage == p) ++ [x]
          else l.filter (fun e => e.percentage == p) := by
  intro l
  induction l with
  | nil =>
    intro _
    by_cases hx : x.percentage = p <;> simp [insertScore, hx]
  | cons y ys ih =>
    intro hsorted
    rcases List.pairwise_cons.mp hsorted with ⟨hy, hys⟩
    simp only [insertScore]
    by_cases hxy : y.percentage < x.percentage
    · rw [if_pos hxy]
      by_cases hx : x.percentage = p
      · have hlt : ∀ e ∈ y :: ys, e.percentage < p := by
          intro e he
          rcases List.mem_cons.mp he with rfl | he
          · exact hx ▸ hxy
          · exact lt_of_le_of_lt (hy e he) (hx ▸ hxy)
        have h0 := filter_pct_eq_nil p (y :: ys) hlt
        simp only [h0]
        rw [List.filter_cons_of_pos (by simp [hx]), h0]
        simp [hx]
      · rw [List.filter_cons_of_neg (by simp [hx])]
        simp [hx]
    · rw [if_neg hxy]
      by_cases hx : x.percentage = p <;> by_cases hyp : y.percentage = p <;>
        simp [List.filter_cons, hx, hyp, ih hys]

theorem foldl_insertScore_filter (p : Int) :
    ∀ (l acc : List ScoreEntry),
      List.Pairwise (fun a b => b.percentage ≤ a.percentage) acc →
      (l.foldl (fun acc x => insertScore x acc) acc).filter (fun e => e.percentage == p)
        = acc.filter (fun e => e.percentage == p) ++ l.filter (fun e => e.percentage == p) := by
  intro l
  induction l with
  | nil => intro acc _; simp
  | cons x xs ih =>
    intro acc hacc
    simp only [List.foldl_cons]
    rw [ih (insertScore x acc) (insertScore_sorted x acc hacc),
      insertScore_filter p x acc hacc]
    by_cases hx : x.percentage = p <;> simp [List.filter_cons, hx]

theorem sortScoresDesc_filter (p : Int) (l : List ScoreEntry) :
    (sortScoresDesc l).filter (fun e => e.percentage == p)
      = l.filter (fun e => e.percentage == p) := by
  have := foldl_insertScore_filter p l [] List.Pairwise.nil
  simpa [sortScoresDesc] using this

theorem sorted_concat_min (l : List ScoreEntry) (e : ScoreEntry)
    (h : List.Pairwise (fun a b => b.percentage ≤ a.percentage) (l ++ [e])) :
    ∀ f ∈ l ++ [e], e.percentage ≤ f.percentage := by
  intro f hf
  rcases List.mem_append.mp hf with hf | hf
  · exact (List.pairwise_append.mp h).2.2 f hf e (List.mem_singleton_self e)
  · rw [List.mem_singleton.mp hf]

theorem sorted_head_max (x : ScoreEntry) (l : List ScoreEntry)
    (h : List.Pairwise (fun a b => b.percentage ≤ a.percentage) (x :: l)) :
    ∀ f ∈ x :: l, f.percentage ≤ x.percentage := by
  intro f hf
  rcases List.mem_cons.mp hf with rfl | hf
  · exact le_refl _
  · exact (List.pairwise_cons.mp h).1 f hf

theorem addScore_evict_decomp (prevScores : List ScoreEntry) (scoreData : ScoreData)
    (now : Nat) (timestamp : String) (hlen : prevScores.length = 10) :
    ∃ e, sortScoresDesc (prevScores ++ [newScoreEntry scoreData now timestamp])
        = addScore prevScores scoreData now timestamp ++ [e] := by
  have hlen2 :
      (sortScoresDesc (prevScores ++ [newScoreEntry scoreData now timestamp])).length = 11 := by
    rw [(sortScoresDesc_perm _).length_eq]
    simp [hlen]
  have hdrop :
      ((sortScoresDesc (prevScores ++ [newScoreEntry scoreData now timestamp])).drop 10).length
        = 1 := by
    rw [List.length_drop, hlen2]
  obtain ⟨e, he⟩ := List.length_eq_one.mp hdrop
  refine ⟨e, ?_⟩
  have hsplit := List.take_append_drop 10
    (sortScoresDesc (prevScores ++ [newScoreEntry scoreData now timestamp]))
  rw [he] at hsplit
  exact hsplit.symm

-- C8 ------------------------------------------------------------------------

/-- C8: after every record operation the ledger holds at most 10 entries,
ordered by percentage descending; when 10 entries are stored, recording
evicts a lowest-percentage entry (the sorted 11-entry list splits into the
kept 10 plus one evicted minimum); `getBestScore` returns `none` on an
empty collection and otherwise a stored entry of maximal percentage; and
recording 20%, 95%, 60% in that order makes `getBestScore` return the 95%
entry. -/
theorem c8_score_ledger :
    (∀ (prevScores : List ScoreEntry) (sd : ScoreData) (now : Nat) (ts : String),
        (addScore prevScores sd now ts).length ≤ 10)
    ∧ (∀ (prevScores : List ScoreEntry) (sd : ScoreData) (now : Nat) (ts : String),
        List.Pairwise (fun a b => b.percentage ≤ a.percentage) (addScore prevScores sd now ts))
    ∧ (∀ (prevScores : List ScoreEntry) (sd : ScoreData) (now : Nat) (ts : String),
        prevScores.length = 10 →
        ∃ e, sortScoresDesc (prevScores ++ [newScoreEntry sd now ts])
            = addScore prevScores sd now ts ++ [e]
          ∧ ∀ f ∈ prevScores ++ [newScoreEntry sd now ts], e.percentage ≤ f.percentage)
    ∧ getBestScore [] = none
    ∧ (∀ (prevScores : List ScoreEntry) (sd : ScoreData) (now : Nat) (ts : String),
        addScore prevScores sd now ts ≠ [] →
        ∃ e, getBestScore (addScore prevScores sd now ts) = some e
          ∧ e ∈ addScore prevScores sd now ts
          ∧ ∀ f ∈ addScore prevScores sd now ts, f.percentage ≤ e.percentage)
    ∧ getBestScore (addScore (addScore (addScore [] d20 1 "t1") d95 2 "t2") d60 3 "t3")
        = some (newScoreEntry d95 2 "t2") := by
  have hsorted : ∀ (prevScores : List ScoreEntry) (sd : ScoreData) (now : Nat) (ts : String),
      List.Pairwise (fun a b => b.percentage ≤ a.percentage) (addScore prevScores sd now ts) :=
    fun prevScores sd now ts =>
      List.Pairwise.sublist (List.take_sublist 10 _) (sortScoresDesc_sorted _)
  refine ⟨?_, hsorted, ?_, rfl, ?_, by decide⟩
  · intro prevScores sd now ts
    simp only [addScore, List.length_take]
    exact inf_le_left
  · intro prevScores sd now ts hlen
    obtain ⟨e, he⟩ := addScore_evict_decomp prevScores sd now ts hlen
    refine ⟨e, he, ?_⟩
    intro f hf
    have hs := sortScoresDesc_sorted (prevScores ++ [newScoreEntry sd now ts])
    rw [he] at hs
    have hf2 : f ∈ sortScoresDesc (prevScores ++ [newScoreEntry sd now ts]) :=
      (sortScoresDesc_perm _).mem_iff.mpr hf
    rw [he] at hf2
    exact sorted_concat_min _ e hs f hf2
  · intro prevScores sd now ts hne
    obtain ⟨x, xs, hx⟩ := List.exists_cons_of_ne_nil hne
    have hs := hsorted prevScores sd now ts
    rw [hx] at hs
    refine ⟨x, by rw [hx]; rfl, by rw [hx]; exact List.mem_cons_self x xs, ?_⟩
    intro f hf
    rw [hx] at hf
    exact sorted_head_max x xs hs f hf

/-- C8 witness: the ledger clauses applied at concrete inputs, including an
eviction from a full 10-entry ledger. -/
theorem c8_score_ledger_witness :
    (addScore [] d20 1 "t1").length ≤ 10
    ∧ (∃ e, sortScoresDesc (List.replicate 10 (newScoreEntry d60 5 "t5")
            ++ [newScoreEntry d95 2 "t2"])
          = addScore (List.replicate 10 (newScoreEntry d60 5 "t5")) d95 2 "t2" ++ [e]
        ∧ ∀ f ∈ List.replicate 10 (newScoreEntry d60 5 "t5") ++ [newScoreEntry d95 2 "t2"],
            e.percentage ≤ f.percentage)
    ∧ (∃ e, getBestScore (addScore [] d20 1 "t1") = some e
        ∧ e ∈ addScore [] d20 1 "t1"
        ∧ ∀ f ∈ addScore [] d20 1 "t1", f.percentage ≤ e.percentage) :=
  ⟨c8_score_ledger.1 [] d20 1 "t1",
   c8_score_ledger.2.2.1 (List.replicate 10 (newScoreEntry d60 5 "t5")) d95 2 "t2" (by decide),
   c8_score_ledger.2.2.2.2.1 [] d20 1 "t1" (by decide)⟩

-- C10 -----------------------------------------------------------------------

/-- C10: the ranking breaks percentage ties by insertion order.  `addScore`
appends the new entry at the end and applies the stable percentage-only
sort truncated to 10; the stable sort preserves, for every percentage
value, the original relative order of its entries (the filter at any fixed
percentage is unchanged); `getBestScore` therefore returns the earliest
recorded among the maximal-percentage entries; and on a full ledger the
evicted element is the last element of the sorted order — the most recently
recorded entry among those with its (minimal) percentage. -/
theorem c10_stable_tiebreak :
    (∀ (prevScores : List ScoreEntry) (sd : ScoreData) (now : Nat) (ts : String),
        addScore prevScores sd now ts
          = (sortScoresDesc (prevScores ++ [newScoreEntry sd now ts])).take 10)
    ∧ (∀ (l : List ScoreEntry) (p : Int),
        (sortScoresDesc l).filter (fun e => e.percentage == p)
          = l.filter (fun e => e.percentage == p))
    ∧ (∀ (l : List ScoreEntry) (p : Int),
        l.filter (fun e => e.percentage == p) ≠ [] →
        (∀ f ∈ l, f.percentage ≤ p) →
        (sortScoresDesc l).head? = (l.filter (fun e => e.percentage == p)).head?)
    ∧ (∀ (prevScores : List ScoreEntry) (sd : ScoreData) (now : Nat) (ts : String),
        prevScores.length = 10 →
        ∃ e, sortScoresDesc (prevScores ++ [newScoreEntry sd now ts])
            = addScore prevScores sd now ts ++ [e]
          ∧ ((prevScores ++ [newScoreEntry sd now ts]).filter
              (fun f => f.percentage == e.percentage)).getLast? = some e) := by
  refine ⟨fun prevScores sd now ts => rfl, fun l p => sortScoresDesc_filter p l, ?_, ?_⟩
  · intro l p hne hle
    have hl : l ≠ [] := by
      intro h0
      rw [h0] at hne
      exact hne rfl
    have hsne : sortScoresDesc l ≠ [] := by
      intro h0
      have hlen := (sortScoresDesc_perm l).length_eq
      rw [h0] at hlen
      exact hl (List.length_eq_zero.mp hlen.symm)
    obtain ⟨x, rest, hx⟩ := List.exists_cons_of_ne_nil hsne
    have hsorted := sortScoresDesc_sorted l
    rw [hx] at hsorted
    have hmax : ∀ f ∈ l, f.percentage ≤ x.percentage := by
      intro f hf
      have hf2 : f ∈ sortScoresDesc l := (sortScoresDesc_perm l).mem_iff.mpr hf
      rw [hx] at hf2
      exact sorted_head_max x rest hsorted f hf2
    have hxl : x ∈ l := (sortScoresDesc_perm l).mem_iff.mp
      (by rw [hx]; exact List.mem_cons_self x rest)
    obtain ⟨a, ha⟩ := List.exists_mem_of_ne_nil _ hne
    have hal : a ∈ l := (List.mem_filter.mp ha).1
    have hap : a.percentage = p := by
      have := (List.mem_filter.mp ha).2
      simpa using this
    have hxp : x.percentage = p := le_antisymm (hle x hxl) (hap ▸ hmax a hal)
    rw [← sortScoresDesc_filter p l, hx,
      List.filter_cons_of_pos (by simp [hxp])]
    rfl
  · intro prevScores sd now ts hlen
    obtain ⟨e, he⟩ := addScore_evict_decomp prevScores sd now ts hlen
    refine ⟨e, he, ?_⟩
    rw [← sortScoresDesc_filter e.percentage
      (prevScores ++ [newScoreEntry sd now ts]), he, List.filter_append]
    have he2 : [e].filter (fun f => f.percentage == e.percentage) = [e] := by simp
    rw [he2]
    exact List.getLast?_concat _

/-- C10 witness: with two 80% entries recorded in order, the sorted ledger
prefers the earlier one; and eviction from a full ledger of equal entries
removes the last of the sorted order. -/
theorem c10_stable_tiebreak_witness :
    (sortScoresDesc [newScoreEntry d20 1 "t1", newScoreEntry d20 2 "t2"]).head?
      = ([newScoreEntry d20 1 "t1", newScoreEntry d20 2 "t2"].filter
          (fun e => e.percentage == 20)).head?
    ∧ ∃ e, sortScoresDesc (List.replicate 10 (newScoreEntry d60 5 "t5")
          ++ [newScoreEntry d20 6 "t6"])
        = addScore (List.replicate 10 (newScoreEntry d60 5 "t5")) d20 6 "t6" ++ [e]
      ∧ ((List.replicate 10 (newScoreEntry d60 5 "t5") ++ [newScoreEntry d20 6 "t6"]).filter
          (fun f => f.percentage == e.percentage)).getLast? = some e :=
  ⟨c10_stable_tiebreak.2.2.1 [newScoreEntry d20 1 "t1", newScoreEntry d20 2 "t2"] 20
      (by decide) (by decide),
   c10_stable_tiebreak.2.2.2 (List.replicate 10 (newScoreEntry d60 5 "t5")) d20 6 "t6"
      (by decide)⟩

/-- C5 witness: a network error propagates immediately on the first
attempt, and a run of three rate-limited attempts surfaces the rate-limit
error. -/
theorem c5_fetch_retry_witness :
    fetchQuestionsWithRetry (fun _ => Except.error networkErrMsg) 3
      = (Except.error networkErrMsg, [])
    ∧ ∃ e, (fun _ => Except.error rateLimitMsg : Nat → Except String (List Question)) (1 + 2)
        = Except.error e
      ∧ (fetchQuestionsWithRetry (fun _ => Except.error rateLimitMsg) (2 + 1)).1
        = Except.error e :=
  ⟨c5_fetch_retry.1 (fun _ => Except.error networkErrMsg) 3 networkErrMsg (by decide) rfl
      (by decide),
   c5_fetch_retry.2.2.1 (fun _ => Except.error rateLimitMsg) 2
      (fun i _ => ⟨rateLimitMsg, rfl, by decide⟩)⟩

-- C7 ------------------------------------------------------------------------

theorem assignDefaultIds_length :
    ∀ (i : Nat) (l : List Question), (assignDefaultIds i l).length = l.length := by
  intro i l
  induction l generalizing i with
  | nil => rfl
  | cons q rest ih => simp [assignDefaultIds, ih]

theorem assignDefaultIds_content :
    ∀ (i : Nat) (l : List Question) (q : Question),
      q ∈ assignDefaultIds i l → ∃ p ∈ l, sameContent q p := by
  intro i l
  induction l generalizing i with
  | nil => intro q hq; simp [assignDefaultIds] at hq
  | cons r rest ih =>
    intro q hq
    simp only [assignDefaultIds, List.mem_cons] at hq
    rcases hq with rfl | hq
    · exact ⟨r, List.mem_cons_self r rest, rfl, rfl, rfl⟩
    · obtain ⟨p, hp, hc⟩ := ih (i + 1) q hq
      exact ⟨p, List.mem_cons_of_mem r hp, hc⟩

theorem fillLoop_spec (shuffler : List Question → List Question) (filtered : List Question)
    (hPerm : ∀ l, (shuffler l).Perm l) (hne : filtered ≠ []) :
    ∀ (need : Nat) (pool acc : List Question), (∀ q ∈ pool, q ∈ filtered) →
      (fillLoop shuffler filtered need pool acc).length = acc.length + need
      ∧ (fillLoop shuffler filtered need pool acc).map Question.id
          = acc.map Question.id ++ List.range' (acc.length + 1) need
      ∧ ∀ q ∈ fillLoop shuffler filtered need pool acc,
          q ∈ acc ∨ ∃ p ∈ filtered, sameContent q p := by
  intro need
  induction need with
  | zero =>
    intro pool acc hpool
    refine ⟨rfl, by simp [fillLoop], ?_⟩
    intro q hq
    exact Or.inl hq
  | succ need ih =>
    intro pool acc hpool
    have hp1ne : (if pool.isEmpty then shuffler filtered else pool) ≠ [] := by
      split_ifs with hemp
      · intro h0
        have hlen := (hPerm filtered).length_eq
        rw [h0] at hlen
        exact hne (List.length_eq_zero.mp hlen.symm)
      · intro h0
        exact hemp (by rw [h0]; rfl)
    have hp1sub : ∀ q ∈ (if pool.isEmpty then shuffler filtered else pool), q ∈ filtered := by
      split_ifs with hemp
      · intro q hq
        exact (hPerm filtered).subset hq
      · exact hpool
    have hlast := List.getLast?_eq_getLast (if pool.isEmpty then shuffler filtered else pool) hp1ne
    have hstep : fillLoop shuffler filtered (need + 1) pool acc
        = fillLoop shuffler filtered need
            (if pool.isEmpty then shuffler filtered else pool).dropLast
            (acc ++ [{ (if pool.isEmpty then shuffler filtered else pool).getLast hp1ne with
                        id := acc.length + 1 }]) := by
      conv_lhs => rw [fillLoop]
      rw [hlast]
    rw [hstep]
    have hsub2 : ∀ q ∈ (if pool.isEmpty then shuffler filtered else pool).dropLast, q ∈ filtered :=
      fun q hq => hp1sub q ((List.dropLast_sublist _).subset hq)
    obtain ⟨ihlen, ihids, ihmem⟩ := ih
      (if pool.isEmpty then shuffler filtered else pool).dropLast
      (acc ++ [{ (if pool.isEmpty then shuffler filtered else pool).getLast hp1ne with
                  id := acc.length + 1 }]) hsub2
    refine ⟨?_, ?_, ?_⟩
    · rw [ihlen]
      simp
      omega
    · rw [ihids, List.range'_succ]
      simp [List.append_assoc]
    · intro q hq
      rcases ihmem q hq with hq2 | hq2
      · rcases List.mem_append.mp hq2 with h | h
        · exact Or.inl h
        · right
          refine ⟨(if pool.isEmpty then shuffler filtered else pool).getLast hp1ne,
            hp1sub _ (List.getLast_mem hp1ne), ?_⟩
          rw [List.mem_singleton.mp h]
          exact ⟨rfl, rfl, rfl⟩
      · exact Or.inr hq2

/-- C7: for every requested count with a non-empty filtered local pool
smaller than it, the local question path returns exactly `amount` questions
whose ids are exactly the fresh sequential values `1..amount` (all
distinct), and every returned question's content (prompt, options, correct
answer) belongs to the filtered pool. -/
theorem c7_local_pool_fill (shuffler : List Question → List Question)
    (dataset : List Question) (difficulty : Option String) (amount : Nat)
    (hPerm : ∀ l, (shuffler l).Perm l)
    (hne : dataset.filter (questionFilter difficulty) ≠ [])
    (hlt : (dataset.filter (questionFilter difficulty)).length < amount) :
    (localQuestionSelection shuffler dataset difficulty amount).length = amount
    ∧ (localQuestionSelection shuffler dataset difficulty amount).map Question.id
        = List.range' 1 amount
    ∧ ((localQuestionSelection shuffler dataset difficulty amount).map Question.id).Nodup
    ∧ ∀ q ∈ localQuestionSelection shuffler dataset difficulty amount,
        ∃ p ∈ dataset.filter (questionFilter difficulty), sameContent q p := by
  have hne0 : assignDefaultIds 0 (dataset.filter (questionFilter difficulty)) ≠ [] := by
    intro h0
    apply hne
    apply List.length_eq_zero.mp
    rw [← assignDefaultIds_length 0 (dataset.filter (questionFilter difficulty)), h0]
    rfl
  have hs1 : (shuffler (assignDefaultIds 0 (dataset.filter (questionFilter difficulty)))).length
      = (dataset.filter (questionFilter difficulty)).length := by
    rw [(hPerm _).length_eq, assignDefaultIds_length]
  have h1 : ¬ (amount
      ≤ (shuffler (assignDefaultIds 0 (dataset.filter (questionFilter difficulty)))).length) := by
    rw [hs1]
    omega
  have h2 :
      0 < (shuffler (assignDefaultIds 0 (dataset.filter (questionFilter difficulty)))).length := by
    rw [hs1]
    have hz : (dataset.filter (questionFilter difficulty)).length ≠ 0 :=
      fun h0 => hne (List.length_eq_zero.mp h0)
    omega
  have hbranch : localQuestionSelection shuffler dataset difficulty amount
      = fillLoop shuffler (assignDefaultIds 0 (dataset.filter (questionFilter difficulty)))
          amount (shuffler (assignDefaultIds 0 (dataset.filter (questionFilter difficulty)))) [] := by
    simp only [localQuestionSelection, if_neg h1, if_pos h2]
  obtain ⟨hlen, hids, hmem⟩ := fillLoop_spec shuffler
    (assignDefaultIds 0 (dataset.filter (questionFilter difficulty))) hPerm hne0 amount
    (shuffler (assignDefaultIds 0 (dataset.filter (questionFilter difficulty)))) []
    (fun q hq => (hPerm _).subset hq)
  refine ⟨?_, ?_, ?_, ?_⟩
  · rw [hbranch, hlen]
    simp
  · rw [hbranch, hids]
    simp
  · rw [hbranch, hids]
    simpa using List.nodup_range' 1 amount
  · intro q hq
    rw [hbranch] at hq
    rcases hmem q hq with h | ⟨p, hp, hc⟩
    · exact absurd h (List.not_mem_nil q)
    · obtain ⟨p0, hp0, hc0⟩ := assignDefaultIds_content 0 _ p hp
      exact ⟨p0, hp0, hc.1.trans hc0.1, hc.2.1.trans hc0.2.1, hc.2.2.trans hc0.2.2⟩

/-- C7 witness: a two-question pool filled out to five questions with fresh
sequential ids whose content comes from the pool. -/
theorem c7_local_pool_fill_witness :
    (localQuestionSelection id smallDataset none 5).length = 5
    ∧ (localQuestionSelection id smallDataset none 5).map Question.id = List.range' 1 5
    ∧ ((localQuestionSelection id smallDataset none 5).map Question.id).Nodup
    ∧ ∀ q ∈ localQuestionSelection id smallDataset none 5,
        ∃ p ∈ smallDataset.filter (questionFilter none), sameContent q p :=
  c7_local_pool_fill id smallDataset none 5 (fun l => List.Perm.refl l) (by decide) (by decide)
